import Mathlib

/-!
Verification of the idefix finite-volume core: a shallow embedding of the
TVDLF Riemann solver (src/hydro/HDsolvers/tvdlfHD.hpp) and of the grid
geometry computation (src/dataBlock/makeGeometry.cpp), together with theorems
about the numerical-flux blend, wave-speed estimate, sweep iteration range,
cell volumes, face areas and the divisions of the spherical branch.

Machine reals (the code's `real` type) are modelled by `ℝ`; `SQRT`, `FABS`,
`FMAX` become `Real.sqrt`, `abs`, `max`.  The equation-of-state functions
`K_PrimToCons` and `K_Flux` are external pure dependencies of the solver
(they are not part of the sources); the solver embedding is parameterised
over them by the structure `HDPhysics`.
-/

noncomputable section

namespace Idefix

/-- External equation-of-state dependencies of the TVDLF solver: the
conservative transform `K_PrimToCons(u, v, gamma_m1)` and the physical flux
`K_Flux(flux, v, u, C2Iso, Xn)`, modelled as pure functions producing the
output vector. -/
structure HDPhysics (nvar : ℕ) where
  primToCons : (Fin nvar → ℝ) → ℝ → (Fin nvar → ℝ)
  flux : (Fin nvar → ℝ) → (Fin nvar → ℝ) → ℝ → Fin nvar → (Fin nvar → ℝ)

/-- Result of the per-face TVDLF computation: the blended flux vector written
to `Flux(nv,k,j,i)` and the signal speed written to `cMax(k,j,i)`. -/
structure FaceResult (nvar : ℕ) where
  flux : Fin nvar → ℝ
  cmax : ℝ

/-- Averaged primitive state, code line `vRL[nv] = HALF_F*(vL[nv]+vR[nv])`
of tvdlfHD.hpp. -/
def vAvg {nvar : ℕ} (vL vR : Fin nvar → ℝ) : Fin nvar → ℝ :=
  fun nv => (1 / 2) * (vL nv + vR nv)

/-- Sound speed of step 4 of the solver: with an energy equation
`cRL = SQRT((gamma_m1+ONE_F)*(vRL[PRS]/vRL[RHO]))` (line 60), otherwise
`cRL = SQRT(C2Iso)` (line 62). -/
def cRL {nvar : ℕ} (he : Bool) (gamma C2Iso : ℝ) (RHO PRS : Fin nvar)
    (v : Fin nvar → ℝ) : ℝ :=
  if he then Real.sqrt ((gamma - 1 + 1) * (v PRS / v RHO)) else Real.sqrt C2Iso

/-- Signal speed formula of step 4 of the solver evaluated at one state:
`cmax = FMAX(FABS(v[Xn]+cRL),FABS(v[Xn]-cRL))` (line 64).  The solver applies
it to the averaged state `vRL`. -/
def signalSpeed {nvar : ℕ} (he : Bool) (gamma C2Iso : ℝ) (RHO PRS Xn : Fin nvar)
    (v : Fin nvar → ℝ) : ℝ :=
  max |v Xn + cRL he gamma C2Iso RHO PRS v| |v Xn - cRL he gamma C2Iso RHO PRS v|

/-- Per-face body of the TVDLF kernel, lines 42-73 of tvdlfHD.hpp:
average the primitive states, convert both sides to conservative form,
evaluate both physical fluxes, estimate `cmax` from the averaged state, and
write `Flux(nv,k,j,i) = HALF_F*(fluxL[nv]+fluxR[nv] - cmax*(uR[nv]-uL[nv]))`
and `cMax(k,j,i) = cmax`.  `he` models the `HAVE_ENERGY` configuration flag
and `gamma - 1` the precomputed `gamma_m1`. -/
def solveFace {nvar : ℕ} (phys : HDPhysics nvar) (he : Bool) (gamma C2Iso : ℝ)
    (RHO PRS Xn : Fin nvar) (vL vR : Fin nvar → ℝ) : FaceResult nvar :=
  { flux := fun nv =>
      (1 / 2) * (phys.flux vL (phys.primToCons vL (gamma - 1)) C2Iso Xn nv
               + phys.flux vR (phys.primToCons vR (gamma - 1)) C2Iso Xn nv
               - signalSpeed he gamma C2Iso RHO PRS Xn (vAvg vL vR)
                 * (phys.primToCons vR (gamma - 1) nv
                    - phys.primToCons vL (gamma - 1) nv)),
    cmax := signalSpeed he gamma C2Iso RHO PRS Xn (vAvg vL vR) }

/-- Definition following the spec's words for the claimed blend:
`flux = 0.5·(fluxLeft + fluxRight) − cmax·(conservativeRight −
conservativeLeft)` component-wise, to be compared with the flux actually
produced by `solveFace`. -/
def claimBlend {nvar : ℕ} (fluxL fluxR uL uR : Fin nvar → ℝ) (cmax : ℝ) :
    Fin nvar → ℝ :=
  fun nv => (1 / 2) * (fluxL nv + fluxR nv) - cmax * (uR nv - uL nv)

/-- Trivial instantiation of the external equation-of-state functions, used
to evaluate the solver on concrete inputs: the conservative transform is the
identity and the physical flux vanishes. -/
def trivPhys : HDPhysics 1 :=
  { primToCons := fun v _ => v, flux := fun _ _ _ _ => fun _ => 0 }

/-- C1 counterexample: at the face with left state 0 and right state 2
(isothermal, `C2Iso = 1`, so `cmax = 2`), the solver returns flux `-2`
while the spec's blend `0.5·(fluxL+fluxR) − cmax·(uR−uL)` gives `-4`:
the code multiplies the dissipation term by `0.5` as well. -/
theorem tvdlf_blend_counterexample :
    (solveFace trivPhys false 2 1 0 0 0 (fun _ => (0 : ℝ)) (fun _ => (2 : ℝ))).flux 0 ≠
      claimBlend
        (trivPhys.flux (fun _ => 0) (trivPhys.primToCons (fun _ => 0) (2 - 1)) 1 0)
        (trivPhys.flux (fun _ => 2) (trivPhys.primToCons (fun _ => 2) (2 - 1)) 1 0)
        (trivPhys.primToCons (fun _ => 0) (2 - 1))
        (trivPhys.primToCons (fun _ => 2) (2 - 1))
        ((solveFace trivPhys false 2 1 0 0 0 (fun _ => (0 : ℝ)) (fun _ => (2 : ℝ))).cmax)
        0 := by
  have h1 : @vAvg 1 (fun _ => (0 : ℝ)) (fun _ => (2 : ℝ)) = fun _ => (1 : ℝ) := by
    funext nv; simp [vAvg]
  simp only [solveFace, claimBlend, trivPhys, h1, signalSpeed, cRL]
  norm_num [Real.sqrt_one]

/-- C1 amended: the flux written by the solver is
`0.5·(fluxLeft + fluxRight − cmax·(conservativeRight − conservativeLeft))`
component-wise, where `cmax` is the wave-speed estimate of step 4 (the
solver's own `cmax` output). -/
theorem tvdlf_flux_half_blend {nvar : ℕ} (phys : HDPhysics nvar) (he : Bool)
    (gamma C2Iso : ℝ) (RHO PRS Xn : Fin nvar) (vL vR : Fin nvar → ℝ) :
    (solveFace phys he gamma C2Iso RHO PRS Xn vL vR).flux = fun nv =>
      (1 / 2) * (phys.flux vL (phys.primToCons vL (gamma - 1)) C2Iso Xn nv
               + phys.flux vR (phys.primToCons vR (gamma - 1)) C2Iso Xn nv
               - (solveFace phys he gamma C2Iso RHO PRS Xn vL vR).cmax
                 * (phys.primToCons vR (gamma - 1) nv
                    - phys.primToCons vL (gamma - 1) nv)) := rfl

/-- C6: solving a face with identical left and right states returns exactly
the physical flux of that state (the dissipation term vanishes) and a max
wave speed equal to the signal speed formula evaluated at that state. -/
theorem tvdlf_equal_states {nvar : ℕ} (phys : HDPhysics nvar) (he : Bool)
    (gamma C2Iso : ℝ) (RHO PRS Xn : Fin nvar) (vA : Fin nvar → ℝ) :
    (solveFace phys he gamma C2Iso RHO PRS Xn vA vA).flux
      = phys.flux vA (phys.primToCons vA (gamma - 1)) C2Iso Xn
    ∧ (solveFace phys he gamma C2Iso RHO PRS Xn vA vA).cmax
      = signalSpeed he gamma C2Iso RHO PRS Xn vA := by
  have havg : vAvg vA vA = vA := by
    funext nv; unfold vAvg; ring
  constructor
  · funext nv
    simp only [solveFace, havg]
    ring
  · simp only [solveFace, havg]

/-- Involution expressing the opposite normal convention on a state or
conservative vector: the component with the normal index `Xn` changes sign
(normal velocity, respectively normal momentum), all others are kept. -/
def flip {nvar : ℕ} (Xn : Fin nvar) (v : Fin nvar → ℝ) : Fin nvar → ℝ :=
  fun nv => if nv = Xn then -(v nv) else v nv

/-- C7: finite-volume flux antisymmetry of the TVDLF solver.  Solving the
face with the roles of left and right exchanged and the normal axis reversed
(states and result expressed through `flip`) returns exactly the negated
flux, and the same max wave speed, provided the external equation-of-state
transform commutes with the reversal and the external flux function is
odd/even in the normal velocity as expected. -/
theorem tvdlf_flux_antisymmetry {nvar : ℕ} (phys : HDPhysics nvar) (he : Bool)
    (gamma C2Iso : ℝ) (RHO PRS Xn : Fin nvar) (hR : RHO ≠ Xn) (hP : PRS ≠ Xn)
    (hcons : ∀ v g, phys.primToCons (flip Xn v) g = flip Xn (phys.primToCons v g))
    (hflux : ∀ v u c, phys.flux (flip Xn v) (flip Xn u) c Xn
      = fun nv => -(flip Xn (phys.flux v u c Xn) nv))
    (vL vR : Fin nvar → ℝ) :
    (solveFace phys he gamma C2Iso RHO PRS Xn vL vR).flux
      = (fun nv => -(flip Xn
          (solveFace phys he gamma C2Iso RHO PRS Xn (flip Xn vR) (flip Xn vL)).flux nv))
    ∧ (solveFace phys he gamma C2Iso RHO PRS Xn vL vR).cmax
      = (solveFace phys he gamma C2Iso RHO PRS Xn (flip Xn vR) (flip Xn vL)).cmax := by
  have havg : vAvg (flip Xn vR) (flip Xn vL) = flip Xn (vAvg vL vR) := by
    funext nv
    by_cases h : nv = Xn <;> simp [vAvg, flip, h] <;> ring
  have hcrl : cRL he gamma C2Iso RHO PRS (flip Xn (vAvg vL vR))
      = cRL he gamma C2Iso RHO PRS (vAvg vL vR) := by
    unfold cRL
    simp [flip, hR, hP]
  have hsig : signalSpeed he gamma C2Iso RHO PRS Xn (vAvg (flip Xn vR) (flip Xn vL))
      = signalSpeed he gamma C2Iso RHO PRS Xn (vAvg vL vR) := by
    rw [havg]
    unfold signalSpeed
    rw [hcrl]
    have hx : flip Xn (vAvg vL vR) Xn = -(vAvg vL vR Xn) := by simp [flip]
    rw [hx, max_comm]
    congr 1
    · rw [show -(vAvg vL vR Xn) - cRL he gamma C2Iso RHO PRS (vAvg vL vR)
          = -(vAvg vL vR Xn + cRL he gamma C2Iso RHO PRS (vAvg vL vR)) by ring, abs_neg]
    · rw [show -(vAvg vL vR Xn) + cRL he gamma C2Iso RHO PRS (vAvg vL vR)
          = -(vAvg vL vR Xn - cRL he gamma C2Iso RHO PRS (vAvg vL vR)) by ring, abs_neg]
  constructor
  · funext nv
    simp only [solveFace, hcons, hflux, hsig]
    by_cases h : nv = Xn <;> simp [flip, h] <;> ring
  · simp only [solveFace, hsig]

/-- Concrete instantiation of the external equation-of-state functions with
the expected parity in the normal velocity (indices: density 0, normal
velocity 1, pressure 2): identity conservative transform and a flux whose
normal component is even and whose other components are odd under reversal
of the normal velocity. -/
def oddPhys : HDPhysics 3 :=
  { primToCons := fun v _ => v,
    flux := fun v u _ xn => fun nv => if nv = xn then u 0 else v nv * v xn }

/-- C7 witness: the antisymmetry theorem applied at a concrete face, with
the parity hypotheses discharged for `oddPhys`. -/
theorem tvdlf_flux_antisymmetry_witness :
    ((0 : Fin 3) ≠ (1 : Fin 3)) ∧ ((2 : Fin 3) ≠ (1 : Fin 3)) ∧
    ((solveFace oddPhys true 2 1 0 2 1 (fun _ => (1 : ℝ)) (fun _ => (2 : ℝ))).flux
      = (fun nv => -(flip 1
          (solveFace oddPhys true 2 1 0 2 1
            (flip 1 (fun _ => (2 : ℝ))) (flip 1 (fun _ => (1 : ℝ)))).flux nv))
    ∧ (solveFace oddPhys true 2 1 0 2 1 (fun _ => (1 : ℝ)) (fun _ => (2 : ℝ))).cmax
      = (solveFace oddPhys true 2 1 0 2 1
          (flip 1 (fun _ => (2 : ℝ))) (flip 1 (fun _ => (1 : ℝ)))).cmax) := by
  refine ⟨by decide, by decide, ?_⟩
  refine tvdlf_flux_antisymmetry oddPhys true 2 1 0 2 1 (by decide) (by decide) ?_ ?_
    (fun _ => (1 : ℝ)) (fun _ => (2 : ℝ))
  · intro v g
    rfl
  · intro v u c
    funext nv
    by_cases h : nv = (1 : Fin 3) <;> simp [oddPhys, flip, h]

/-- Sweep direction template parameter `DIR` of the kernel, one of
`IDIR`, `JDIR`, `KDIR`. -/
inductive Dir where
  | IDIR
  | JDIR
  | KDIR
deriving DecidableEq

/-- Offset along X1: `ioffset = 1` when `DIR == IDIR`, else `0` (lines 9-13). -/
def ioffset (dir : Dir) : ℕ := if dir = Dir.IDIR then 1 else 0

/-- Offset along X2: `joffset = 1` when `DIR == JDIR`, else `0` (lines 9-13). -/
def joffset (dir : Dir) : ℕ := if dir = Dir.JDIR then 1 else 0

/-- Offset along X3: `koffset = 1` when `DIR == KDIR`, else `0` (lines 9-13). -/
def koffset (dir : Dir) : ℕ := if dir = Dir.KDIR then 1 else 0

/-- Data consumed and produced by one sweep of the flux-assembly kernel:
reconstructed primitive states `PrimL`/`PrimR` indexed as `(nv,k,j,i)`, the
flux and max-wave-speed arrays before the sweep, and the subdomain bounds
`data.beg`/`data.end` per axis. -/
structure SweepData (nvar : ℕ) where
  PrimL : Fin nvar → ℕ → ℕ → ℕ → ℝ
  PrimR : Fin nvar → ℕ → ℕ → ℕ → ℝ
  FluxRiemann : Fin nvar → ℕ → ℕ → ℕ → ℝ
  cMax : ℕ → ℕ → ℕ → ℝ
  begK : ℕ
  begJ : ℕ
  begI : ℕ
  endK : ℕ
  endJ : ℕ
  endI : ℕ

/-- Iteration range of the `idefix_for` call of line 22: indices
`(k,j,i)` with `data.beg[dir] ≤ idx < data.end[dir] + offset` on each axis,
where the offset is `1` exactly along the sweep direction. -/
def inSweepRange {nvar : ℕ} (d : SweepData nvar) (dir : Dir) (k j i : ℕ) : Prop :=
  (d.begK ≤ k ∧ k < d.endK + koffset dir)
  ∧ (d.begJ ≤ j ∧ j < d.endJ + joffset dir)
  ∧ (d.begI ≤ i ∧ i < d.endI + ioffset dir)

instance {nvar : ℕ} (d : SweepData nvar) (dir : Dir) (k j i : ℕ) :
    Decidable (inSweepRange d dir k j i) := by
  unfold inSweepRange; infer_instance

/-- Left state gathered at face `(k,j,i)`: `vL[nv] = PrimL(nv,k,j,i)`. -/
def faceL {nvar : ℕ} (d : SweepData nvar) (k j i : ℕ) : Fin nvar → ℝ :=
  fun nv => d.PrimL nv k j i

/-- Right state gathered at face `(k,j,i)`: `vR[nv] = PrimR(nv,k,j,i)`. -/
def faceR {nvar : ℕ} (d : SweepData nvar) (k j i : ℕ) : Fin nvar → ℝ :=
  fun nv => d.PrimR nv k j i

/-- Flux array after the sweep: at every index of the iteration range the
kernel wrote the blended flux of that face, elsewhere the array is
untouched. -/
def sweepFlux {nvar : ℕ} (phys : HDPhysics nvar) (he : Bool) (gamma C2Iso : ℝ)
    (RHO PRS Xn : Fin nvar) (d : SweepData nvar) (dir : Dir)
    (nv : Fin nvar) (k j i : ℕ) : ℝ :=
  if inSweepRange d dir k j i then
    (solveFace phys he gamma C2Iso RHO PRS Xn (faceL d k j i) (faceR d k j i)).flux nv
  else d.FluxRiemann nv k j i

/-- Max-wave-speed array after the sweep: at every index of the iteration
range the kernel wrote that face's `cmax`, elsewhere the array is
untouched. -/
def sweepCMax {nvar : ℕ} (phys : HDPhysics nvar) (he : Bool) (gamma C2Iso : ℝ)
    (RHO PRS Xn : Fin nvar) (d : SweepData nvar) (dir : Dir) (k j i : ℕ) : ℝ :=
  if inSweepRange d dir k j i then
    (solveFace phys he gamma C2Iso RHO PRS Xn (faceL d k j i) (faceR d k j i)).cmax
  else d.cMax k j i

/-- Concrete sweep data used to evaluate the kernel: zero state arrays on
the subdomain with bounds `beg = 1` and `end = 3` on every axis. -/
def trivSweep : SweepData 1 :=
  { PrimL := fun _ _ _ _ => 0
    PrimR := fun _ _ _ _ => 0
    FluxRiemann := fun _ _ _ _ => 0
    cMax := fun _ _ _ => 0
    begK := 1
    begJ := 1
    begI := 1
    endK := 3
    endJ := 3
    endI := 3 }

/-- C2: the wave-speed estimate is computed from the component-wise average
of the left and right primitive states: with an energy equation the sound
speed is `sqrt((gamma−1+1)·pressure/density)` of the averaged state and
`cmax` is the larger of `|v+c|` and `|v−c|` there; in the isothermal
configuration the sound speed is the state-independent `sqrt(C2Iso)`; and
this `cmax` is exactly the per-face value written to the max-wave-speed
array by the sweep. -/
theorem tvdlf_cmax_from_average {nvar : ℕ} (phys : HDPhysics nvar) (he : Bool)
    (gamma C2Iso : ℝ) (RHO PRS Xn : Fin nvar) (vL vR : Fin nvar → ℝ) :
    (he = true → (solveFace phys he gamma C2Iso RHO PRS Xn vL vR).cmax
      = max |vAvg vL vR Xn
              + Real.sqrt ((gamma - 1 + 1) * (vAvg vL vR PRS / vAvg vL vR RHO))|
            |vAvg vL vR Xn
              - Real.sqrt ((gamma - 1 + 1) * (vAvg vL vR PRS / vAvg vL vR RHO))|)
    ∧ (he = false → (solveFace phys he gamma C2Iso RHO PRS Xn vL vR).cmax
      = max |vAvg vL vR Xn + Real.sqrt C2Iso| |vAvg vL vR Xn - Real.sqrt C2Iso|)
    ∧ (∀ (d : SweepData nvar) (dir : Dir) (k j i : ℕ), inSweepRange d dir k j i →
        sweepCMax phys he gamma C2Iso RHO PRS Xn d dir k j i
          = (solveFace phys he gamma C2Iso RHO PRS Xn (faceL d k j i) (faceR d k j i)).cmax) := by
  refine ⟨fun h => ?_, fun h => ?_, fun d dir k j i hin => ?_⟩
  · simp [solveFace, signalSpeed, cRL, h]
  · simp [solveFace, signalSpeed, cRL, h]
  · simp [sweepCMax, hin]

/-- C2 witness: the wave-speed characterisation applied at a concrete
isothermal face and at a concrete in-range sweep index. -/
theorem tvdlf_cmax_from_average_witness :
    ((false = false) ∧
      (solveFace trivPhys false 2 1 0 0 0 (fun _ => (0 : ℝ)) (fun _ => (2 : ℝ))).cmax
        = max |@vAvg 1 (fun _ => (0 : ℝ)) (fun _ => (2 : ℝ)) 0 + Real.sqrt 1|
              |@vAvg 1 (fun _ => (0 : ℝ)) (fun _ => (2 : ℝ)) 0 - Real.sqrt 1|)
    ∧ (inSweepRange trivSweep Dir.IDIR 1 1 3 ∧
        sweepCMax trivPhys false 2 1 0 0 0 trivSweep Dir.IDIR 1 1 3
          = (solveFace trivPhys false 2 1 0 0 0
              (faceL trivSweep 1 1 3) (faceR trivSweep 1 1 3)).cmax) := by
  constructor
  · exact ⟨rfl, (tvdlf_cmax_from_average trivPhys false 2 1 0 0 0
      (fun _ => (0 : ℝ)) (fun _ => (2 : ℝ))).2.1 rfl⟩
  · have hin : inSweepRange trivSweep Dir.IDIR 1 1 3 := by
      unfold inSweepRange trivSweep ioffset joffset koffset
      simp
    exact ⟨hin, (tvdlf_cmax_from_average trivPhys false 2 1 0 0 0
      (fun _ => (0 : ℝ)) (fun _ => (2 : ℝ))).2.2 trivSweep Dir.IDIR 1 1 3 hin⟩

/-- C8: the flux-assembly kernel iterates exactly over the 3D index range
whose extent along the sweep direction is the cell count plus one (the
offset adds one face) and whose extents along the two transverse directions
equal the cell counts; at every index of that range it writes one flux
vector and one wave speed (the solver results for that face) and it touches
nothing outside the range. -/
theorem tvdlf_sweep_faces {nvar : ℕ} (phys : HDPhysics nvar) (he : Bool)
    (gamma C2Iso : ℝ) (RHO PRS Xn : Fin nvar) (d : SweepData nvar) (dir : Dir)
    (hK : d.begK ≤ d.endK) (hJ : d.begJ ≤ d.endJ) (hI : d.begI ≤ d.endI)
    (k j i : ℕ) :
    (inSweepRange d dir k j i ↔
      (d.begK ≤ k ∧ k < d.begK + (d.endK - d.begK) + koffset dir)
      ∧ (d.begJ ≤ j ∧ j < d.begJ + (d.endJ - d.begJ) + joffset dir)
      ∧ (d.begI ≤ i ∧ i < d.begI + (d.endI - d.begI) + ioffset dir))
    ∧ (inSweepRange d dir k j i →
        (∀ nv, sweepFlux phys he gamma C2Iso RHO PRS Xn d dir nv k j i
          = (solveFace phys he gamma C2Iso RHO PRS Xn (faceL d k j i) (faceR d k j i)).flux nv)
        ∧ sweepCMax phys he gamma C2Iso RHO PRS Xn d dir k j i
          = (solveFace phys he gamma C2Iso RHO PRS Xn (faceL d k j i) (faceR d k j i)).cmax)
    ∧ (¬ inSweepRange d dir k j i →
        (∀ nv, sweepFlux phys he gamma C2Iso RHO PRS Xn d dir nv k j i
          = d.FluxRiemann nv k j i)
        ∧ sweepCMax phys he gamma C2Iso RHO PRS Xn d dir k j i = d.cMax k j i) := by
  refine ⟨?_, fun hin => ?_, fun hout => ?_⟩
  · unfold inSweepRange
    rw [Nat.add_sub_cancel' hK, Nat.add_sub_cancel' hJ, Nat.add_sub_cancel' hI]
  · exact ⟨fun nv => by simp [sweepFlux, hin], by simp [sweepCMax, hin]⟩
  · exact ⟨fun nv => by simp [sweepFlux, hout], by simp [sweepCMax, hout]⟩

/-- C8 witness: the sweep-range characterisation applied to the concrete
subdomain with bounds 1 and 3 (two cells per axis), sweep along X1, at the
last face index `i = 3`. -/
theorem tvdlf_sweep_faces_witness :
    (trivSweep.begK ≤ trivSweep.endK) ∧ (trivSweep.begJ ≤ trivSweep.endJ)
    ∧ (trivSweep.begI ≤ trivSweep.endI)
    ∧ ((inSweepRange trivSweep Dir.IDIR 1 1 3 ↔
        (trivSweep.begK ≤ 1 ∧ 1 < trivSweep.begK + (trivSweep.endK - trivSweep.begK) + koffset Dir.IDIR)
        ∧ (trivSweep.begJ ≤ 1 ∧ 1 < trivSweep.begJ + (trivSweep.endJ - trivSweep.begJ) + joffset Dir.IDIR)
        ∧ (trivSweep.begI ≤ 3 ∧ 3 < trivSweep.begI + (trivSweep.endI - trivSweep.begI) + ioffset Dir.IDIR))
      ∧ (inSweepRange trivSweep Dir.IDIR 1 1 3 →
          (∀ nv, sweepFlux trivPhys false 2 1 0 0 0 trivSweep Dir.IDIR nv 1 1 3
            = (solveFace trivPhys false 2 1 0 0 0 (faceL trivSweep 1 1 3) (faceR trivSweep 1 1 3)).flux nv)
          ∧ sweepCMax trivPhys false 2 1 0 0 0 trivSweep Dir.IDIR 1 1 3
            = (solveFace trivPhys false 2 1 0 0 0 (faceL trivSweep 1 1 3) (faceR trivSweep 1 1 3)).cmax)
      ∧ (¬ inSweepRange trivSweep Dir.IDIR 1 1 3 →
          (∀ nv, sweepFlux trivPhys false 2 1 0 0 0 trivSweep Dir.IDIR nv 1 1 3
            = trivSweep.FluxRiemann nv 1 1 3)
          ∧ sweepCMax trivPhys false 2 1 0 0 0 trivSweep Dir.IDIR 1 1 3
            = trivSweep.cMax 1 1 3)) := by
  refine ⟨by norm_num [trivSweep], by norm_num [trivSweep], by norm_num [trivSweep], ?_⟩
  exact tvdlf_sweep_faces trivPhys false 2 1 0 0 0 trivSweep Dir.IDIR
    (by norm_num [trivSweep]) (by norm_num [trivSweep]) (by norm_num [trivSweep]) 1 1 3

/-- C10: the wave speed written to the max-wave-speed array at any face of
the iteration range is non-negative, being a maximum of two absolute
values, given non-negative averaged pressure and density in the energy
configuration and non-negative `C2Iso` in the isothermal one. -/
theorem tvdlf_cmax_nonneg {nvar : ℕ} (phys : HDPhysics nvar) (he : Bool)
    (gamma C2Iso : ℝ) (RHO PRS Xn : Fin nvar) (d : SweepData nvar) (dir : Dir)
    (_hiso : he = false → 0 ≤ C2Iso)
    (_hen : he = true → ∀ k j i, inSweepRange d dir k j i →
      0 ≤ vAvg (faceL d k j i) (faceR d k j i) PRS
      ∧ 0 ≤ vAvg (faceL d k j i) (faceR d k j i) RHO)
    (k j i : ℕ) (hin : inSweepRange d dir k j i) :
    0 ≤ sweepCMax phys he gamma C2Iso RHO PRS Xn d dir k j i := by
  simp only [sweepCMax, hin, if_true, solveFace, signalSpeed]
  exact le_trans (abs_nonneg _) (le_max_left _ _)

/-- C10 witness: non-negativity of the written wave speed at a concrete
isothermal face, with the positivity hypotheses discharged. -/
theorem tvdlf_cmax_nonneg_witness :
    ((0 : ℝ) ≤ 1) ∧ inSweepRange trivSweep Dir.IDIR 1 1 3
    ∧ 0 ≤ sweepCMax trivPhys false 2 1 0 0 0 trivSweep Dir.IDIR 1 1 3 := by
  have hin : inSweepRange trivSweep Dir.IDIR 1 1 3 := by
    unfold inSweepRange trivSweep ioffset joffset koffset
    simp
  refine ⟨by norm_num, hin, ?_⟩
  exact tvdlf_cmax_nonneg trivPhys false 2 1 0 0 0 trivSweep Dir.IDIR
    (fun _ => by norm_num) (fun h => by simp at h) 1 1 3 hin

/-- Geometry selector, the compile-time `GEOMETRY` macro of makeGeometry.cpp. -/
inductive Geometry where
  | cartesian
  | cylindrical
  | polar
  | spherical
deriving DecidableEq

/-- Per-axis grid arrays read by `DataBlock::MakeGeometry`: cell centers
`x`, spacings `dx`, left face positions `xl` (the code's `x1m`, `x2m`) and
right face positions `xr` (the code's `x1p`, `x2p`), as functions of the
cell index along each axis. -/
structure Grid where
  x1 : ℕ → ℝ
  dx1 : ℕ → ℝ
  x1m : ℕ → ℝ
  x1p : ℕ → ℝ
  x2 : ℕ → ℝ
  dx2 : ℕ → ℝ
  x2m : ℕ → ℝ
  x2p : ℕ → ℝ
  x3 : ℕ → ℝ
  dx3 : ℕ → ℝ

/-- The `D_EXPAND(a, *b, *c)` macro: inactive axes contribute a unit
factor, so the product keeps `b` only from two dimensions on and `c` only
in three dimensions. -/
def dExpand (dim : ℕ) (a b c : ℝ) : ℝ :=
  a * (if 2 ≤ dim then b else 1) * (if 3 ≤ dim then c else 1)

/-- Volumes kernel of `MakeGeometry`, lines 27-48: `dV(k,j,i)` for each of
the four geometries. -/
def dV (geom : Geometry) (dim : ℕ) (g : Grid) (k j i : ℕ) : ℝ :=
  match geom with
  | .cartesian => dExpand dim (g.dx1 i) (g.dx2 j) (g.dx3 k)
  | .cylindrical =>
      dExpand dim (|g.x1p i * g.x1p i - g.x1m i * g.x1m i| / 2) (g.dx2 j) 1
  | .polar =>
      dExpand dim (|g.x1p i * g.x1p i - g.x1m i * g.x1m i| / 2) (g.dx2 j) (g.dx3 k)
  | .spherical =>
      dExpand dim
        (|g.x1p i * g.x1p i * g.x1p i - g.x1m i * g.x1m i * g.x1m i| / 3)
        (|Real.cos (g.x2m j) - Real.cos (g.x2p j)|) (g.dx3 k)

/-- GeometricalCentersX1 kernel, lines 56-67: the corrected cell center
along X1. -/
def x1gc (geom : Geometry) (g : Grid) (i : ℕ) : ℝ :=
  match geom with
  | .cartesian => g.x1 i
  | .cylindrical => g.x1 i + g.dx1 i * g.dx1 i / (12 * g.x1 i)
  | .polar => g.x1 i + g.dx1 i * g.dx1 i / (12 * g.x1 i)
  | .spherical => g.x1 i + 2 * g.x1 i * g.dx1 i * g.dx1 i
      / (12 * g.x1 i * g.x1 i + g.dx1 i * g.dx1 i)

/-- Precomputed radius-weighted mean of the spherical branch, line 65:
`rt(i) = (x1p³ − x1m³) / (x1p² − x1m²) / 1.5`, with no absolute values. -/
def rt (g : Grid) (i : ℕ) : ℝ :=
  (g.x1p i * g.x1p i * g.x1p i - g.x1m i * g.x1m i * g.x1m i)
    / (g.x1p i * g.x1p i - g.x1m i * g.x1m i) / 1.5

/-- Definition following the spec's words for the claimed form of `rt`: the
cubed-radius difference and the squared-radius difference each passed
through an absolute value before use. -/
def rtSpecAbs (g : Grid) (i : ℕ) : ℝ :=
  |g.x1p i * g.x1p i * g.x1p i - g.x1m i * g.x1m i * g.x1m i|
    / |g.x1p i * g.x1p i - g.x1m i * g.x1m i| / 1.5

/-- GeometricalCentersX2 kernel, spherical branch, line 77: the polar-angle
geometric center. -/
def sphericalX2gc (g : Grid) (j : ℕ) : ℝ :=
  (Real.sin (g.x2p j) - Real.sin (g.x2m j)
      + g.x2m j * Real.cos (g.x2m j) - g.x2p j * Real.cos (g.x2p j))
    / (Real.cos (g.x2m j) - Real.cos (g.x2p j))

/-- Divisors of every division performed by the spherical branch of
`MakeGeometry` at cell `(i,j)`: the `/3.0` of the volume kernel (line 42),
the denominator of the spherical `x1gc` (lines 63-64), the denominator and
the `/1.5` of `rt` (line 65), and the denominator of the spherical `x2gc`
(line 77). -/
def sphericalDivisors (g : Grid) (i j : ℕ) : List ℝ :=
  [3, 12 * g.x1 i * g.x1 i + g.dx1 i * g.dx1 i,
   g.x1p i * g.x1p i - g.x1m i * g.x1m i, 1.5,
   Real.cos (g.x2m j) - Real.cos (g.x2p j)]

/-- AreaX1 kernel, lines 96-125, with `n1 = np_tot[IDIR]` (the code's
`end`): the radial face area, built from the left face radius except at the
last face of the subdomain. -/
def Ax1 (geom : Geometry) (dim : ℕ) (g : Grid) (n1 : ℕ) (k j i : ℕ) : ℝ :=
  match geom with
  | .cartesian => dExpand dim 1 (g.dx2 j) (g.dx3 k)
  | .cylindrical =>
      if i = n1 then dExpand dim |g.x1p (i - 1)| (g.dx2 j) 1
      else dExpand dim |g.x1m i| (g.dx2 j) 1
  | .polar =>
      if i = n1 then dExpand dim |g.x1p (i - 1)| (g.dx2 j) (g.dx3 k)
      else dExpand dim |g.x1m i| (g.dx2 j) (g.dx3 k)
  | .spherical =>
      if i = n1 then
        dExpand dim (g.x1p (i - 1) * g.x1p (i - 1))
          (|Real.cos (g.x2m j) - Real.cos (g.x2p j)|) (g.dx3 k)
      else
        dExpand dim (g.x1m i * g.x1m i)
          (|Real.cos (g.x2m j) - Real.cos (g.x2p j)|) (g.dx3 k)

/-- AreaX2 kernel, lines 129-145, with `n2 = np_tot[JDIR]`: in spherical
geometry the sine of the left face angle is used except at the last X2 face
of the subdomain. -/
def Ax2 (geom : Geometry) (dim : ℕ) (g : Grid) (n2 : ℕ) (k j i : ℕ) : ℝ :=
  match geom with
  | .cartesian => dExpand dim (g.dx1 i) 1 (g.dx3 k)
  | .cylindrical => dExpand dim |g.x1 i| (g.dx1 i) 1
  | .polar => dExpand dim (g.dx1 i) 1 (g.dx3 k)
  | .spherical =>
      if j = n2 then
        dExpand dim (g.x1 i * g.dx1 i) |Real.sin (g.x2p (j - 1))| (g.dx3 k)
      else dExpand dim (g.x1 i * g.dx1 i) |Real.sin (g.x2m j)| (g.dx3 k)

/-- The grid with both radial face arrays negated, expressing a
negative-radial-coordinate convention for the same cells. -/
def radNeg (g : Grid) : Grid :=
  { g with x1m := fun i => -(g.x1m i), x1p := fun i => -(g.x1p i) }

lemma dExpand_pos {dim : ℕ} {a b c : ℝ} (ha : 0 < a) (hb : 0 < b)
    (hc : 0 < c) : 0 < dExpand dim a b c := by
  unfold dExpand
  split_ifs
  · exact mul_pos (mul_pos ha hb) hc
  · exact mul_pos (mul_pos ha hb) one_pos
  · exact mul_pos (mul_pos ha one_pos) hc
  · exact mul_pos (mul_pos ha one_pos) one_pos

lemma cube_lt_cube {a b : ℝ} (h : a < b) : a * a * a < b * b * b := by
  have h3 : Odd 3 := ⟨1, by norm_num⟩
  have h1 : a ^ 3 < b ^ 3 := h3.strictMono_pow h
  calc a * a * a = a ^ 3 := by ring
    _ < b ^ 3 := h1
    _ = b * b * b := by ring

/-- Strictly increasing coordinate family with strictly increasing gaps:
`cexSeq a n = a + n(n+3)/2`, so consecutive gaps are `n+2`. -/
def cexSeq (a : ℝ) (n : ℕ) : ℝ := a + (n : ℝ) * ((n : ℝ) + 3) / 2

lemma cexSeq_succ (a : ℝ) (n : ℕ) :
    cexSeq a (n + 1) = cexSeq a n + ((n : ℝ) + 2) := by
  unfold cexSeq
  push_cast
  ring

lemma cexSeq_strictMono (a : ℝ) : StrictMono (cexSeq a) := by
  apply strictMono_nat_of_lt_succ
  intro n
  rw [cexSeq_succ]
  have h : (0 : ℝ) ≤ (n : ℝ) := Nat.cast_nonneg n
  linarith

/-- Fully valid coordinate arrays in which cell 0 of the radial axis spans
`r ∈ [−1, 1]`: every cell-center, spacing and face sequence is strictly
increasing, faces bracket correctly and spacings are positive. -/
def cexGrid : Grid :=
  { x1 := fun i => (cexSeq (-1) i + cexSeq (-1) (i + 1)) / 2
    dx1 := fun i => (i : ℝ) + 2
    x1m := fun i => cexSeq (-1) i
    x1p := fun i => cexSeq (-1) (i + 1)
    x2 := fun j => (cexSeq 0 j + cexSeq 0 (j + 1)) / 2
    dx2 := fun j => (j : ℝ) + 2
    x2m := fun j => cexSeq 0 j
    x2p := fun j => cexSeq 0 (j + 1)
    x3 := fun k => (cexSeq 1 k + cexSeq 1 (k + 1)) / 2
    dx3 := fun k => (k : ℝ) + 2 }

lemma linCast_strictMono : StrictMono (fun n : ℕ => (n : ℝ) + 2) := by
  intro m n h
  have hmn : (m : ℝ) < (n : ℝ) := by exact_mod_cast h
  simpa using hmn

lemma cexMid_strictMono (a : ℝ) :
    StrictMono (fun n : ℕ => (cexSeq a n + cexSeq a (n + 1)) / 2) := by
  intro m n h
  have h1 := cexSeq_strictMono a h
  have h2 := cexSeq_strictMono a (show m + 1 < n + 1 by omega)
  simp only
  linarith

/-- C3 counterexample: for cylindrical geometry there is a coordinate array
whose cell-center, spacing and face-position sequences are all strictly
increasing (and whose faces bracket their cells with positive spacings),
yet the cell spanning `r ∈ [−1, 1]` gets volume `0`, not `> 0`: the
cylindrical volume term `|x1p² − x1m²|/2` vanishes when the two face radii
have equal squares. -/
theorem cellVolume_pos_counterexample :
    (StrictMono cexGrid.x1 ∧ StrictMono cexGrid.dx1
      ∧ StrictMono cexGrid.x1m ∧ StrictMono cexGrid.x1p)
    ∧ (StrictMono cexGrid.x2 ∧ StrictMono cexGrid.dx2
      ∧ StrictMono cexGrid.x2m ∧ StrictMono cexGrid.x2p)
    ∧ (StrictMono cexGrid.x3 ∧ StrictMono cexGrid.dx3)
    ∧ (∀ n, cexGrid.x1m n < cexGrid.x1p n)
    ∧ (∀ n, cexGrid.x2m n < cexGrid.x2p n)
    ∧ (∀ n, 0 < cexGrid.dx1 n) ∧ (∀ n, 0 < cexGrid.dx2 n)
    ∧ (∀ n, 0 < cexGrid.dx3 n)
    ∧ ¬ (0 < dV Geometry.cylindrical 3 cexGrid 0 0 0) := by
  have hface : ∀ a : ℝ, ∀ n : ℕ, cexSeq a n < cexSeq a (n + 1) :=
    fun a n => cexSeq_strictMono a (Nat.lt_succ_self n)
  have hdx : ∀ n : ℕ, (0 : ℝ) < (n : ℝ) + 2 := fun n => by
    have h : (0 : ℝ) ≤ (n : ℝ) := Nat.cast_nonneg n
    linarith
  refine ⟨⟨cexMid_strictMono (-1), linCast_strictMono, cexSeq_strictMono (-1),
      fun m n h => cexSeq_strictMono (-1) (show m + 1 < n + 1 by omega)⟩,
    ⟨cexMid_strictMono 0, linCast_strictMono, cexSeq_strictMono 0,
      fun m n h => cexSeq_strictMono 0 (show m + 1 < n + 1 by omega)⟩,
    ⟨cexMid_strictMono 1, linCast_strictMono⟩,
    fun n => hface (-1) n, fun n => hface 0 n,
    fun n => hdx n, fun n => hdx n, fun n => hdx n, ?_⟩
  have h0 : dV Geometry.cylindrical 3 cexGrid 0 0 0 = 0 := by
    simp [dV, dExpand, cexGrid, cexSeq]
    norm_num
  rw [h0]
  exact lt_irrefl 0

/-- C3 amended: with strictly increasing valid coordinates (positive
spacings, left face below right face) and, additionally, non-negative
radial face coordinates in the cylindrical and polar geometries and polar
angles within `[0, π]` in the spherical geometry, every cell volume is
strictly positive in all four geometries. -/
theorem cellVolume_pos (g : Grid) (geom : Geometry) (dim k j i : ℕ)
    (hdx1 : 0 < g.dx1 i) (hdx2 : 0 < g.dx2 j) (hdx3 : 0 < g.dx3 k)
    (hf1 : g.x1m i < g.x1p i)
    (hrad : geom = Geometry.cylindrical ∨ geom = Geometry.polar → 0 ≤ g.x1m i)
    (hsph : geom = Geometry.spherical →
      0 ≤ g.x2m j ∧ g.x2p j ≤ Real.pi ∧ g.x2m j < g.x2p j) :
    0 < dV geom dim g k j i := by
  cases geom with
  | cartesian => exact dExpand_pos hdx1 hdx2 hdx3
  | cylindrical =>
      have h0 : 0 ≤ g.x1m i := hrad (Or.inl rfl)
      have hsq : g.x1m i * g.x1m i < g.x1p i * g.x1p i :=
        mul_self_lt_mul_self h0 hf1
      have ha : 0 < |g.x1p i * g.x1p i - g.x1m i * g.x1m i| / 2 := by
        rw [abs_of_pos (by linarith)]
        linarith
      exact dExpand_pos ha hdx2 one_pos
  | polar =>
      have h0 : 0 ≤ g.x1m i := hrad (Or.inr rfl)
      have hsq : g.x1m i * g.x1m i < g.x1p i * g.x1p i :=
        mul_self_lt_mul_self h0 hf1
      have ha : 0 < |g.x1p i * g.x1p i - g.x1m i * g.x1m i| / 2 := by
        rw [abs_of_pos (by linarith)]
        linarith
      exact dExpand_pos ha hdx2 hdx3
  | spherical =>
      obtain ⟨h2m, h2p, h2lt⟩ := hsph rfl
      have hcb : g.x1m i * g.x1m i * g.x1m i < g.x1p i * g.x1p i * g.x1p i :=
        cube_lt_cube hf1
      have ha : 0 < |g.x1p i * g.x1p i * g.x1p i - g.x1m i * g.x1m i * g.x1m i| / 3 := by
        rw [abs_of_pos (by linarith)]
        linarith
      have hcos : Real.cos (g.x2p j) < Real.cos (g.x2m j) :=
        Real.cos_lt_cos_of_nonneg_of_le_pi h2m h2p h2lt
      have hb : 0 < |Real.cos (g.x2m j) - Real.cos (g.x2p j)| := by
        rw [abs_of_pos (by linarith)]
        linarith
      exact dExpand_pos ha hb hdx3

/-- Concrete well-formed grid cell used to instantiate the geometry
theorems: radius faces `[1, 2]`, polar-angle faces `[0, 2] ⊂ [0, π]`, unit
spacings. -/
def gPos : Grid :=
  { x1 := fun _ => 1
    dx1 := fun _ => 1
    x1m := fun _ => 1
    x1p := fun _ => 2
    x2 := fun _ => 1
    dx2 := fun _ => 1
    x2m := fun _ => 0
    x2p := fun _ => 2
    x3 := fun _ => 0
    dx3 := fun _ => 1 }

/-- C3 witness: positivity of the spherical cell volume on the concrete
grid cell, with all hypotheses discharged. -/
theorem cellVolume_pos_witness :
    (0 < gPos.dx1 0) ∧ (0 < gPos.dx2 0) ∧ (0 < gPos.dx3 0)
    ∧ (gPos.x1m 0 < gPos.x1p 0)
    ∧ (0 ≤ gPos.x2m 0 ∧ gPos.x2p 0 ≤ Real.pi ∧ gPos.x2m 0 < gPos.x2p 0)
    ∧ 0 < dV Geometry.spherical 3 gPos 0 0 0 := by
  have hpi : (2 : ℝ) ≤ Real.pi := by
    have h := Real.pi_gt_three
    linarith
  refine ⟨by norm_num [gPos], by norm_num [gPos], by norm_num [gPos],
    by norm_num [gPos], ⟨by norm_num [gPos], by simpa [gPos] using hpi, by norm_num [gPos]⟩, ?_⟩
  exact cellVolume_pos gPos Geometry.spherical 3 0 0 0
    (by norm_num [gPos]) (by norm_num [gPos]) (by norm_num [gPos]) (by norm_num [gPos])
    (fun _ => by norm_num [gPos])
    (fun _ => ⟨by norm_num [gPos], by simpa [gPos] using hpi, by norm_num [gPos]⟩)

/-- Grid cell with face radii `[−2, 1]`, on which the raw and the
absolute-value forms of `rt` differ. -/
def g4 : Grid :=
  { x1 := fun _ => 0
    dx1 := fun _ => 1
    x1m := fun _ => -2
    x1p := fun _ => 1
    x2 := fun _ => 0
    dx2 := fun _ => 1
    x2m := fun _ => 0
    x2p := fun _ => 1
    x3 := fun _ => 0
    dx3 := fun _ => 1 }

/-- C4 counterexample: the precomputed radius-weighted mean `rt` does not
pass its squared- and cubed-radius differences through absolute values:
on the cell with face radii `−2` and `1` the code computes
`rt = 9 / (−3) / 1.5 = −2`, while the claimed all-absolute-value form
gives `+2`. -/
theorem rt_abs_counterexample : rt g4 0 = -2 ∧ rtSpecAbs g4 0 = 2 := by
  constructor
  · unfold rt g4
    norm_num
  · unfold rtSpecAbs g4
    norm_num

/-- C4 amended: the volume terms built from squared- or cubed-radius
differences do take absolute values — the cylindrical, polar and spherical
cell volumes are unchanged when both radial face arrays are negated — but
the precomputed `rt` uses the raw signed differences: it is odd under that
negation, and equals the unguarded quotient
`(x1p³ − x1m³) / (x1p² − x1m²) / 1.5`. -/
theorem volume_abs_rt_signed (g : Grid) (dim k j i : ℕ) :
    dV Geometry.cylindrical dim (radNeg g) k j i
      = dV Geometry.cylindrical dim g k j i
    ∧ dV Geometry.polar dim (radNeg g) k j i = dV Geometry.polar dim g k j i
    ∧ dV Geometry.spherical dim (radNeg g) k j i
      = dV Geometry.spherical dim g k j i
    ∧ rt g i = (g.x1p i * g.x1p i * g.x1p i - g.x1m i * g.x1m i * g.x1m i)
        / (g.x1p i * g.x1p i - g.x1m i * g.x1m i) / 1.5
    ∧ rt (radNeg g) i = -(rt g i) := by
  refine ⟨?_, ?_, ?_, rfl, ?_⟩
  · simp [dV, radNeg, neg_mul_neg]
  · simp [dV, radNeg, neg_mul_neg]
  · simp only [dV, radNeg]
    rw [show -(g.x1p i) * -(g.x1p i) * -(g.x1p i)
          - -(g.x1m i) * -(g.x1m i) * -(g.x1m i)
        = -(g.x1p i * g.x1p i * g.x1p i - g.x1m i * g.x1m i * g.x1m i) by ring,
      abs_neg]
  · simp only [rt, radNeg]
    rw [show -(g.x1p i) * -(g.x1p i) * -(g.x1p i)
          - -(g.x1m i) * -(g.x1m i) * -(g.x1m i)
        = -(g.x1p i * g.x1p i * g.x1p i - g.x1m i * g.x1m i * g.x1m i) by ring,
      show -(g.x1p i) * -(g.x1p i) - -(g.x1m i) * -(g.x1m i)
        = g.x1p i * g.x1p i - g.x1m i * g.x1m i by ring,
      neg_div, neg_div]

/-- C5: in the cylindrical, polar and spherical geometries the radial face
area at face index `i` is built from the left face radius `x1m i` for every
face except the last face of the subdomain (`i = n1`, the total radial cell
count), where it is built from the right face radius `x1p (n1−1)` of the
last interior cell; the spherical polar-angle face area has the same
left/right boundary asymmetry through the sine of the face angle. -/
theorem faceArea_boundary_asym (g : Grid) (dim n1 n2 k j i : ℕ)
    (hi : i ≠ n1) (hj : j ≠ n2) :
    (Ax1 Geometry.cylindrical dim g n1 k j i = dExpand dim |g.x1m i| (g.dx2 j) 1
      ∧ Ax1 Geometry.polar dim g n1 k j i
        = dExpand dim |g.x1m i| (g.dx2 j) (g.dx3 k)
      ∧ Ax1 Geometry.spherical dim g n1 k j i
        = dExpand dim (g.x1m i * g.x1m i)
            (|Real.cos (g.x2m j) - Real.cos (g.x2p j)|) (g.dx3 k)
      ∧ Ax2 Geometry.spherical dim g n2 k j i
        = dExpand dim (g.x1 i * g.dx1 i) |Real.sin (g.x2m j)| (g.dx3 k))
    ∧ (Ax1 Geometry.cylindrical dim g n1 k j n1
        = dExpand dim |g.x1p (n1 - 1)| (g.dx2 j) 1
      ∧ Ax1 Geometry.polar dim g n1 k j n1
        = dExpand dim |g.x1p (n1 - 1)| (g.dx2 j) (g.dx3 k)
      ∧ Ax1 Geometry.spherical dim g n1 k j n1
        = dExpand dim (g.x1p (n1 - 1) * g.x1p (n1 - 1))
            (|Real.cos (g.x2m j) - Real.cos (g.x2p j)|) (g.dx3 k)
      ∧ Ax2 Geometry.spherical dim g n2 k n2 i
        = dExpand dim (g.x1 i * g.dx1 i) |Real.sin (g.x2p (n2 - 1))| (g.dx3 k)) := by
  refine ⟨⟨?_, ?_, ?_, ?_⟩, ⟨?_, ?_, ?_, ?_⟩⟩ <;> simp [Ax1, Ax2, hi, hj]

/-- C5 witness: the boundary asymmetry at interior face `i = 2` and last
faces `n1 = n2 = 4` of the concrete grid. -/
theorem faceArea_boundary_asym_witness :
    (2 ≠ 4) ∧ (1 ≠ 4)
    ∧ ((Ax1 Geometry.cylindrical 3 gPos 4 0 1 2 = dExpand 3 |gPos.x1m 2| (gPos.dx2 1) 1
      ∧ Ax1 Geometry.polar 3 gPos 4 0 1 2
        = dExpand 3 |gPos.x1m 2| (gPos.dx2 1) (gPos.dx3 0)
      ∧ Ax1 Geometry.spherical 3 gPos 4 0 1 2
        = dExpand 3 (gPos.x1m 2 * gPos.x1m 2)
            (|Real.cos (gPos.x2m 1) - Real.cos (gPos.x2p 1)|) (gPos.dx3 0)
      ∧ Ax2 Geometry.spherical 3 gPos 4 0 1 2
        = dExpand 3 (gPos.x1 2 * gPos.dx1 2) |Real.sin (gPos.x2m 1)| (gPos.dx3 0))
    ∧ (Ax1 Geometry.cylindrical 3 gPos 4 0 1 4
        = dExpand 3 |gPos.x1p (4 - 1)| (gPos.dx2 1) 1
      ∧ Ax1 Geometry.polar 3 gPos 4 0 1 4
        = dExpand 3 |gPos.x1p (4 - 1)| (gPos.dx2 1) (gPos.dx3 0)
      ∧ Ax1 Geometry.spherical 3 gPos 4 0 1 4
        = dExpand 3 (gPos.x1p (4 - 1) * gPos.x1p (4 - 1))
            (|Real.cos (gPos.x2m 1) - Real.cos (gPos.x2p 1)|) (gPos.dx3 0)
      ∧ Ax2 Geometry.spherical 3 gPos 4 0 4 2
        = dExpand 3 (gPos.x1 2 * gPos.dx1 2) |Real.sin (gPos.x2p (4 - 1))| (gPos.dx3 0))) := by
  refine ⟨by decide, by decide, ?_⟩
  exact faceArea_boundary_asym gPos 3 4 4 0 1 2 (by decide) (by decide)

/-- Grid cell exhibiting a zero divisor in the spherical geometric-center
computation while the face radii have distinct squares and the face angles
have distinct cosines: cell center radius and spacing are both zero. -/
def g9 : Grid :=
  { x1 := fun _ => 0
    dx1 := fun _ => 0
    x1m := fun _ => 1
    x1p := fun _ => 2
    x2 := fun _ => 0
    dx2 := fun _ => 1
    x2m := fun _ => 0
    x2p := fun _ => Real.pi
    x3 := fun _ => 0
    dx3 := fun _ => 1 }

/-- C9 counterexample: on `g9` the face angles have distinct cosines and
the face radii have distinct squares, yet one of the divisors of the
spherical branch of `MakeGeometry` is zero: the denominator
`12·x1² + dx1²` of the radial geometric center vanishes because the cell
center radius and the spacing are both zero. -/
theorem spherical_divisors_counterexample :
    Real.cos (g9.x2m 0) ≠ Real.cos (g9.x2p 0)
    ∧ g9.x1p 0 * g9.x1p 0 ≠ g9.x1m 0 * g9.x1m 0
    ∧ (0 : ℝ) ∈ sphericalDivisors g9 0 0 := by
  refine ⟨?_, by norm_num [g9], ?_⟩
  · simp [g9, Real.cos_pi, Real.cos_zero]
    norm_num
  · simp [sphericalDivisors, g9]

/-- C9 amended: if the face angles of a cell have distinct cosines, its
face radii have distinct squares and its center radius and spacing are not
both zero, then every division performed by the spherical branch of
`MakeGeometry` has a nonzero divisor. -/
theorem spherical_divisors_nonzero (g : Grid) (i j : ℕ)
    (hcos : Real.cos (g.x2m j) ≠ Real.cos (g.x2p j))
    (hsq : g.x1p i * g.x1p i ≠ g.x1m i * g.x1m i)
    (hcell : ¬ (g.x1 i = 0 ∧ g.dx1 i = 0)) :
    ∀ d ∈ sphericalDivisors g i j, d ≠ 0 := by
  intro d hd
  simp only [sphericalDivisors, List.mem_cons, List.not_mem_nil, or_false] at hd
  rcases hd with h | h | h | h | h
  · rw [h]; norm_num
  · rw [h]
    intro h0
    apply hcell
    have hx : g.x1 i * g.x1 i = 0 := by
      nlinarith [mul_self_nonneg (g.x1 i), mul_self_nonneg (g.dx1 i)]
    have hdx : g.dx1 i * g.dx1 i = 0 := by
      nlinarith [mul_self_nonneg (g.x1 i), mul_self_nonneg (g.dx1 i)]
    exact ⟨mul_self_eq_zero.mp hx, mul_self_eq_zero.mp hdx⟩
  · rw [h]
    exact sub_ne_zero_of_ne hsq
  · rw [h]; norm_num
  · rw [h]
    exact sub_ne_zero_of_ne hcos

/-- C9 witness: all spherical divisors are nonzero on the concrete
well-formed grid cell, with the hypotheses discharged. -/
theorem spherical_divisors_nonzero_witness :
    Real.cos (gPos.x2m 0) ≠ Real.cos (gPos.x2p 0)
    ∧ gPos.x1p 0 * gPos.x1p 0 ≠ gPos.x1m 0 * gPos.x1m 0
    ∧ ¬ (gPos.x1 0 = 0 ∧ gPos.dx1 0 = 0)
    ∧ ∀ d ∈ sphericalDivisors gPos 0 0, d ≠ 0 := by
  have hpi : (2 : ℝ) ≤ Real.pi := by
    have h := Real.pi_gt_three
    linarith
  have hcos2 : Real.cos 2 < Real.cos 0 :=
    Real.cos_lt_cos_of_nonneg_of_le_pi le_rfl hpi (by norm_num)
  have hcos : Real.cos (gPos.x2m 0) ≠ Real.cos (gPos.x2p 0) := by
    simp only [gPos]
    exact ne_of_gt hcos2
  refine ⟨hcos, by norm_num [gPos], by norm_num [gPos], ?_⟩
  exact spherical_divisors_nonzero gPos 0 0 hcos (by norm_num [gPos]) (by norm_num [gPos])

end Idefix
